import Mathlib

/-!
Shallow embedding of the NFT portfolio component in src/NFTViewer.tsx.

Network calls (contract reads, metadata fetch, marketplace price fetch) are
modelled as oracle functions returning `Except String _` (a thrown exception
is an `.error`); code that catches exceptions turns them into `Option`/default
results exactly where the source does.  JavaScript numbers are modelled as
rationals, JavaScript strings as Lean strings, and JavaScript truthiness is
made explicit at each use site (empty string and zero are falsy).
-/

namespace NFTViewer

/-- Pattern `pat` occurs at the start of `s` (character list form). -/
def startsWithL : List Char → List Char → Bool
  | [], _ => true
  | _ :: _, [] => false
  | p :: ps, c :: cs => decide (p = c) && startsWithL ps cs

/-- Pattern `pat` occurs somewhere inside `s` (character list form). -/
def occursIn (pat : List Char) : List Char → Bool
  | [] => startsWithL pat []
  | c :: cs => startsWithL pat (c :: cs) || occursIn pat cs

/-- JavaScript `String.replace` with a string pattern: replace the FIRST
occurrence of `pat` (anywhere in the string, not only at the start) by
`repl`; if `pat` does not occur the string is returned unchanged. -/
def jsReplaceFirst (pat repl : List Char) : List Char → List Char
  | [] => if startsWithL pat [] then repl else []
  | c :: cs =>
    if startsWithL pat (c :: cs) then repl ++ List.drop pat.length (c :: cs)
    else c :: jsReplaceFirst pat repl cs

/-- `tokenURI.replace('ipfs://', 'https://ipfs.io/ipfs/')` from the source
(lines 152 and 158 of src/NFTViewer.tsx). -/
def resolveContentAddress (s : String) : String :=
  ⟨jsReplaceFirst "ipfs://".data "https://ipfs.io/ipfs/".data s.data⟩

/-- JavaScript `s.includes(pat)`. -/
def jsIncludes (s pat : String) : Bool := occursIn pat.data s.data

/-- One entry of the metadata document attributes array. -/
structure TraitAttr where
  trait_type : String
  value : String
deriving DecidableEq

/-- The NFT record the component constructs (interface NFT, lines 13 to 26).
Optional fields of the TypeScript interface are `Option`s. -/
structure NFT where
  tokenId : String
  name : String
  image : String
  description : String
  attributes : Option (List TraitAttr)
  collectionName : Option String
  collectionSymbol : Option String
  lowestPrice : Option ℚ
  currency : Option String
deriving DecidableEq

/-- The parsed JSON metadata document; each field may be absent. -/
structure MetaDoc where
  name : Option String
  image : Option String
  description : Option String
  attributes : Option (List TraitAttr)
deriving DecidableEq

/-- `payment_token_contract` part of a marketplace listing. -/
structure PaymentTokenContract where
  decimals : Nat
  symbol : String
deriving DecidableEq

/-- One marketplace sell order.  `current_price` is `none` when the field is
absent or an empty string (both are falsy in the source check);
`payment_token_contract` is `none` when that field is absent, in which case
reading `.decimals` on it throws. -/
structure SellOrder where
  current_price : Option ℚ
  payment_token_contract : Option PaymentTokenContract
deriving DecidableEq

/-- The marketplace asset response body; `sell_orders` may be absent. -/
structure OpenSeaAsset where
  sell_orders : Option (List SellOrder)
deriving DecidableEq

/-- The price result returned by `fetchOpenSeaPrice` on success. -/
structure PriceData where
  price : ℚ
  currency : String
deriving DecidableEq

/-- `fetchOpenSeaPrice` (lines 52 to 83).  The whole body is wrapped in
try/catch returning `null` on any throw, so a failed request (`resp` is
`.error`) and a missing `payment_token_contract` both yield `none`.  The
source reads `data.sell_orders?.[0]?.current_price` — the FIRST listing
only — and then the truthiness check `lowestPrice ? ... : null` maps a
converted price of zero to `null`. -/
def fetchOpenSeaPrice (resp : Except String OpenSeaAsset) : Option PriceData :=
  match resp with
  | .error _ => none
  | .ok data =>
    match data.sell_orders with
    | some (o :: _) =>
      match o.current_price with
      | some cp =>
        match o.payment_token_contract with
        | some ptc =>
          let lowestPrice : ℚ := cp / (10 : ℚ) ^ ptc.decimals
          if lowestPrice = 0 then none else some ⟨lowestPrice, ptc.symbol⟩
        | none => none
      | none => none
    | _ => none

/-- `fetchNFTMetadata` (lines 141 to 168): enumeration call, tokenURI call,
metadata fetch and parse; any throw at any step is caught and surfaces as
`none`.  The name falls back to `"#<tokenId>"` when the metadata name field
is absent OR an empty string (JavaScript `metadata.name || ...`). -/
def fetchNFTMetadata (own : Nat → Except String Nat)
    (uri : Nat → Except String String)
    (doc : String → Except String MetaDoc)
    (collectionName collectionSymbol : String) (index : Nat) : Option NFT :=
  match own index with
  | .error _ => none
  | .ok tokenId =>
    match uri tokenId with
    | .error _ => none
    | .ok tokenURI =>
      match doc (resolveContentAddress tokenURI) with
      | .error _ => none
      | .ok metadata =>
        some ⟨toString tokenId,
          (match metadata.name with
           | some s => if s = "" then "#" ++ toString tokenId else s
           | none => "#" ++ toString tokenId),
          (metadata.image.map resolveContentAddress).getD "",
          metadata.description.getD "",
          metadata.attributes,
          some collectionName,
          some collectionSymbol,
          none,
          none⟩

/-- The per-entry price attachment step of `fetchNFTs` (lines 120 to 129):
`{ ...nft, lowestPrice: priceData?.price, currency: priceData?.currency }`. -/
def attachPrice (priceResp : String → Except String OpenSeaAsset) (nft : NFT) : NFT :=
  let priceData := fetchOpenSeaPrice (priceResp nft.tokenId)
  ⟨nft.tokenId, nft.name, nft.image, nft.description, nft.attributes,
   nft.collectionName, nft.collectionSymbol,
   priceData.map PriceData.price, priceData.map PriceData.currency⟩

/-- The error message set by the catch block of `fetchNFTs` (line 134). -/
def errMsg : String :=
  "Failed to fetch NFTs. Please check your contract address and wallet address."

/-- `fetchNFTs` (lines 85 to 139).  The three prerequisite reads
(`name()`, `symbol()`, `balanceOf`) run before any per-item work; a throw in
any of them reaches the outer catch, which sets the single run level error
and produces no entry list.  Per-item work (`fetchNFTMetadata`,
`fetchOpenSeaPrice`) catches internally and never throws, so the outer catch
is unreachable after the prerequisites succeed.  Failed metadata results are
`null` and are dropped by `filter(nft => nft !== null)`; nothing records
them. -/
def fetchNFTs (nameRes symbolRes : Except String String)
    (balanceRes : Except String Nat)
    (own : Nat → Except String Nat)
    (uri : Nat → Except String String)
    (doc : String → Except String MetaDoc)
    (priceResp : String → Except String OpenSeaAsset) :
    Except String (List NFT) :=
  match nameRes with
  | .error _ => .error errMsg
  | .ok collectionName =>
    match symbolRes with
    | .error _ => .error errMsg
    | .ok collectionSymbol =>
      match balanceRes with
      | .error _ => .error errMsg
      | .ok balance =>
        let nftResults := (List.range balance).map
          (fetchNFTMetadata own uri doc collectionName collectionSymbol)
        let validNFTs := nftResults.filterMap id
        .ok (validNFTs.map (attachPrice priceResp))

/-- JavaScript falsiness of an optional number: `undefined` and `0` are
falsy (the source comparator tests `!a.lowestPrice`). -/
def jsFalsyPrice : Option ℚ → Bool
  | none => true
  | some q => decide (q = 0)

/-- The price branch of the sort comparator (lines 181 to 186). -/
def priceCompare (a b : NFT) : ℚ :=
  if jsFalsyPrice a.lowestPrice then
    (if jsFalsyPrice b.lowestPrice then 0 else 1)
  else if jsFalsyPrice b.lowestPrice then -1
  else a.lowestPrice.getD 0 - b.lowestPrice.getD 0

/-- JavaScript `Array.prototype.sort` with a consistent comparator: stable
(ES2019), element `x` precedes `y` whenever `cmp x y ≤ 0` and `x` preceded
`y` in the input.  Modelled as stable insertion sort, which realises exactly
that contract. -/
def jsSortBy (cmp : NFT → NFT → ℚ) (l : List NFT) : List NFT :=
  List.insertionSort (fun a b => cmp a b ≤ 0) l

/-- The filter predicate of `filteredAndSortedNFTs` (lines 171 to 174). -/
def matchesFilter (filterStr : String) (n : NFT) : Bool :=
  jsIncludes n.name.toLower filterStr.toLower ||
  jsIncludes n.description.toLower filterStr.toLower

/-- `filteredAndSortedNFTs` (lines 170 to 190), parametrised by the
comparator selected by `sortBy`: `[...nfts]` copies the state array, then
`filter` builds a new array, then `sort` reorders that copy in place.  The
returned pair is (the `nfts` state array after the statement, the derived
view). -/
def filteredAndSortedNFTs (nfts : List NFT) (filterStr : String)
    (cmp : NFT → NFT → ℚ) : List NFT × List NFT :=
  let copied := nfts
  let filtered := copied.filter (matchesFilter filterStr)
  let sorted := jsSortBy cmp filtered
  (nfts, sorted)

/-! ### Lemmas about the content address rewrite -/

theorem startsWithL_append_self (pat rest : List Char) :
    startsWithL pat (pat ++ rest) = true := by
  induction pat with
  | nil => rfl
  | cons p ps ih => simp [startsWithL, ih]

theorem jsReplaceFirst_append (pat repl rest : List Char) :
    jsReplaceFirst pat repl (pat ++ rest) = repl ++ rest := by
  cases pat with
  | nil =>
    cases rest with
    | nil => simp [jsReplaceFirst, startsWithL]
    | cons c cs => simp [jsReplaceFirst, startsWithL]
  | cons p ps =>
    show jsReplaceFirst (p :: ps) repl (p :: (ps ++ rest)) = repl ++ rest
    rw [jsReplaceFirst]
    rw [show startsWithL (p :: ps) (p :: (ps ++ rest)) = true from
      startsWithL_append_self (p :: ps) rest]
    simp

theorem jsReplaceFirst_of_not_occurs (pat repl : List Char) :
    ∀ s : List Char, occursIn pat s = false → jsReplaceFirst pat repl s = s := by
  intro s
  induction s with
  | nil =>
    intro h
    rw [occursIn] at h
    simp [jsReplaceFirst, h]
  | cons c cs ih =>
    intro h
    rw [occursIn, Bool.or_eq_false_iff] at h
    rw [jsReplaceFirst, h.1]
    simp [ih h.2]

/-! ### The price sort key and comparator lemmas -/

/-- The equivalence class the comparator actually sorts by: `none` for an
absent OR zero price (both are falsy), `some p` for a nonzero present
price. -/
def priceKey (n : NFT) : Option ℚ :=
  if jsFalsyPrice n.lowestPrice then none else n.lowestPrice

/-- Order on price keys: every nonzero present price precedes every
absent-or-zero key, and nonzero present prices are ordered by `≤`. -/
def keyLE : Option ℚ → Option ℚ → Prop
  | _, none => True
  | none, some _ => False
  | some p, some q => p ≤ q

theorem jsFalsyPrice_eq_false_iff (p : Option ℚ) :
    jsFalsyPrice p = false ↔ ∃ q, p = some q ∧ q ≠ 0 := by
  cases p with
  | none => simp [jsFalsyPrice]
  | some q => simp [jsFalsyPrice]

theorem priceKey_of_falsy {n : NFT} (h : jsFalsyPrice n.lowestPrice = true) :
    priceKey n = none := by
  simp [priceKey, h]

theorem priceKey_of_not_falsy {n : NFT} (h : jsFalsyPrice n.lowestPrice = false) :
    priceKey n = n.lowestPrice := by
  simp [priceKey, h]

theorem priceCompare_le_iff (a b : NFT) :
    priceCompare a b ≤ 0 ↔ keyLE (priceKey a) (priceKey b) := by
  unfold priceCompare
  cases ha : jsFalsyPrice a.lowestPrice with
  | true =>
    cases hb : jsFalsyPrice b.lowestPrice with
    | true => simp [priceKey_of_falsy ha, priceKey_of_falsy hb, keyLE]
    | false =>
      obtain ⟨q, hq, _⟩ := (jsFalsyPrice_eq_false_iff _).mp hb
      simp [priceKey_of_falsy ha, priceKey_of_not_falsy hb, hq, keyLE]
  | false =>
    obtain ⟨p, hp, _⟩ := (jsFalsyPrice_eq_false_iff _).mp ha
    cases hb : jsFalsyPrice b.lowestPrice with
    | true =>
      simp [priceKey_of_not_falsy ha, priceKey_of_falsy hb, hp, keyLE]
    | false =>
      obtain ⟨q, hq, _⟩ := (jsFalsyPrice_eq_false_iff _).mp hb
      simp [priceKey_of_not_falsy ha, priceKey_of_not_falsy hb, hp, hq, keyLE,
        sub_nonpos]

theorem keyLE_refl (k : Option ℚ) : keyLE k k := by
  cases k with
  | none => trivial
  | some p => exact le_refl p

theorem keyLE_total (x y : Option ℚ) : keyLE x y ∨ keyLE y x := by
  cases x with
  | none => cases y with
    | none => exact Or.inl trivial
    | some q => exact Or.inr trivial
  | some p => cases y with
    | none => exact Or.inl trivial
    | some q => exact le_total p q

theorem keyLE_trans {x y z : Option ℚ} (h1 : keyLE x y) (h2 : keyLE y z) :
    keyLE x z := by
  cases z with
  | none => cases x <;> trivial
  | some r =>
    cases y with
    | none => exact absurd h2 (by cases x <;> simp [keyLE] at h2 ⊢)
    | some q =>
      cases x with
      | none => exact absurd h1 (by simp [keyLE] at h1)
      | some p => exact le_trans h1 h2

theorem priceCompare_total (a b : NFT) :
    priceCompare a b ≤ 0 ∨ priceCompare b a ≤ 0 := by
  rw [priceCompare_le_iff, priceCompare_le_iff]
  exact keyLE_total _ _

theorem priceCompare_trans {a b c : NFT} (h1 : priceCompare a b ≤ 0)
    (h2 : priceCompare b c ≤ 0) : priceCompare a c ≤ 0 := by
  rw [priceCompare_le_iff] at h1 h2 ⊢
  exact keyLE_trans h1 h2

theorem priceCompare_key_ne {a b : NFT} (h : ¬ priceCompare a b ≤ 0) :
    priceKey a ≠ priceKey b := by
  intro hk
  exact h ((priceCompare_le_iff a b).mpr (hk ▸ keyLE_refl (priceKey a)))

/-! ### Stability of the modelled sort -/

theorem filter_orderedInsert_key {α K : Type} [DecidableEq K]
    (r : α → α → Prop) [DecidableRel r] (key : α → K)
    (hr : ∀ x y, ¬ r x y → key x ≠ key y) (x : α) (k : K) :
    ∀ l : List α, (List.orderedInsert r x l).filter (fun a => key a = k) =
      if key x = k then x :: l.filter (fun a => key a = k)
      else l.filter (fun a => key a = k) := by
  intro l
  induction l with
  | nil => by_cases hk : key x = k <;> simp [List.orderedInsert, hk]
  | cons y ys ih =>
    rw [List.orderedInsert]
    by_cases hxy : r x y
    · by_cases hk : key x = k <;> simp [hxy, hk, List.filter]
    · have hne : key x ≠ key y := hr x y hxy
      by_cases hk : key x = k
      · have hyk : ¬ key y = k := fun hyk => hne (hk.trans hyk.symm)
        simp [hxy, hk, hyk, List.filter, ih]
      · by_cases hyk : key y = k <;> simp [hxy, hk, hyk, List.filter, ih]

theorem filter_insertionSort_key {α K : Type} [DecidableEq K]
    (r : α → α → Prop) [DecidableRel r] (key : α → K)
    (hr : ∀ x y, ¬ r x y → key x ≠ key y) (k : K) :
    ∀ l : List α, (List.insertionSort r l).filter (fun a => key a = k) =
      l.filter (fun a => key a = k) := by
  intro l
  induction l with
  | nil => rfl
  | cons a l ih =>
    rw [List.insertionSort, filter_orderedInsert_key r key hr a k]
    by_cases hk : key a = k <;> simp [hk, List.filter, ih]

/-! ### Helper definitions for concrete scenarios and spec comparison -/

/-- An NFT with only identifier, name and price populated. -/
def plainNFT (tid nm : String) (p : Option ℚ) : NFT :=
  ⟨tid, nm, "", "", none, none, none, p, none⟩

/-- The price response of the spec example: listings of 500, 200 and 800
base units, each with decimals = 2. -/
def exampleAsset : OpenSeaAsset :=
  ⟨some [⟨some 500, some ⟨2, "WETH"⟩⟩,
         ⟨some 200, some ⟨2, "WETH"⟩⟩,
         ⟨some 800, some ⟨2, "WETH"⟩⟩]⟩

/-- Follows the spec text of §4.4: selects the lowest current price among
all returned listings, each converted by dividing by `10 ^ decimals`.
Stated only to compare the source behaviour against the spec. -/
def specLowestListingPrice (a : OpenSeaAsset) : Option ℚ :=
  match a.sell_orders with
  | some orders =>
    (orders.filterMap (fun o =>
      match o.current_price, o.payment_token_contract with
      | some cp, some ptc => some (cp / (10 : ℚ) ^ ptc.decimals)
      | _, _ => none)).min?
  | none => none

/-- The same NFT with the price field removed (used to compare comparator
behaviour on a zero price against an absent price). -/
def erasePrice (n : NFT) : NFT :=
  ⟨n.tokenId, n.name, n.image, n.description, n.attributes, n.collectionName,
   n.collectionSymbol, none, n.currency⟩

/-! ### Claim theorems -/

/-- C1: the code reads only the first listing of the response.  On the spec
example (listings 500, 200, 800 base units, decimals = 2) it returns 5.00
— the first listing converted — while the spec-mandated minimum over all
listings is 2.00.  This establishes the divergence of the source from the
spec sentence it was compared against. -/
theorem c1_first_listing_not_minimum :
    fetchOpenSeaPrice (.ok exampleAsset) = some ⟨5, "WETH"⟩ ∧
    specLowestListingPrice exampleAsset = some 2 ∧
    ((5 : ℚ) ≠ 2) := by
  refine ⟨?_, ?_, by norm_num⟩
  · show fetchOpenSeaPrice (.ok exampleAsset) = some ⟨5, "WETH"⟩
    norm_num [fetchOpenSeaPrice, exampleAsset]
  · show specLowestListingPrice exampleAsset = some 2
    have h1 : (500 : ℚ) / (10 : ℚ) ^ (2 : Nat) = 5 := by norm_num
    have h2 : (200 : ℚ) / (10 : ℚ) ^ (2 : Nat) = 2 := by norm_num
    have h3 : (800 : ℚ) / (10 : ℚ) ^ (2 : Nat) = 8 := by norm_num
    simp only [specLowestListingPrice, exampleAsset, List.filterMap, h1, h2, h3]
    norm_num [List.min?, List.foldl, min_def]

/-- C3: a failed price resolution (here: `fetchOpenSeaPrice` returns `none`
for the entry) never removes the surviving entry from the result list: the
entry is still mapped into the output, its price and currency fields are
absent, and every other field is unchanged. -/
theorem c3_price_failure_keeps_entry
    (priceResp : String → Except String OpenSeaAsset)
    (nfts : List NFT) (nft : NFT) (hmem : nft ∈ nfts)
    (hfail : fetchOpenSeaPrice (priceResp nft.tokenId) = none) :
    attachPrice priceResp nft ∈ nfts.map (attachPrice priceResp) ∧
    (attachPrice priceResp nft).lowestPrice = none ∧
    (attachPrice priceResp nft).currency = none ∧
    attachPrice priceResp nft =
      ⟨nft.tokenId, nft.name, nft.image, nft.description, nft.attributes,
       nft.collectionName, nft.collectionSymbol, none, none⟩ ∧
    (nfts.map (attachPrice priceResp)).length = nfts.length := by
  refine ⟨List.mem_map_of_mem _ hmem, ?_, ?_, ?_, by simp⟩ <;>
    simp [attachPrice, hfail]

/-- C3 witness: a concrete entry whose price request throws is kept, with
the price left absent. -/
theorem c3_witness :
    plainNFT "1" "x" none ∈ [plainNFT "1" "x" none] ∧
    fetchOpenSeaPrice ((fun _ => Except.error "down") (plainNFT "1" "x" none).tokenId) = none ∧
    attachPrice (fun _ => Except.error "down") (plainNFT "1" "x" none) ∈
      [plainNFT "1" "x" none].map (attachPrice (fun _ => Except.error "down")) :=
  ⟨by decide, rfl,
    (c3_price_failure_keeps_entry (fun _ => Except.error "down")
      [plainNFT "1" "x" none] (plainNFT "1" "x" none) (by decide) rfl).1⟩

/-- C5 counterexample: the claim says an input WITHOUT a recognized scheme
at the start is returned unchanged, but the source uses
`String.replace`, which rewrites the first occurrence of `"ipfs://"`
anywhere in the string: `"xipfs://abc"` does not start with the scheme yet
is changed. -/
theorem c5_cex_nonscheme_input_rewritten :
    startsWithL "ipfs://".data "xipfs://abc".data = false ∧
    resolveContentAddress "xipfs://abc" ≠ "xipfs://abc" := by
  refine ⟨by decide, by decide⟩

/-- C5 amended: the resolver substitutes the configured gateway base path
for the FIRST occurrence of the scheme marker anywhere in the input — in
particular an input that starts with the scheme becomes the gateway path
followed by the content identifier unchanged; an input in which the marker
does not occur at all (the empty string included) is returned unchanged;
the resolver is a total function and never fails. -/
theorem c5_resolver_behaviour :
    (∀ rest : List Char,
       resolveContentAddress ⟨"ipfs://".data ++ rest⟩ =
         ⟨"https://ipfs.io/ipfs/".data ++ rest⟩) ∧
    (∀ s : String, occursIn "ipfs://".data s.data = false →
       resolveContentAddress s = s) ∧
    resolveContentAddress "" = "" := by
  refine ⟨?_, ?_, by decide⟩
  · intro rest
    show (⟨jsReplaceFirst "ipfs://".data "https://ipfs.io/ipfs/".data
      ("ipfs://".data ++ rest)⟩ : String) = ⟨"https://ipfs.io/ipfs/".data ++ rest⟩
    rw [jsReplaceFirst_append]
  · intro s h
    show (⟨jsReplaceFirst "ipfs://".data "https://ipfs.io/ipfs/".data s.data⟩ : String) = s
    rw [jsReplaceFirst_of_not_occurs _ _ s.data h]

/-- C5 witness: the scheme-at-start rewrite on `"abc123"` and the unchanged
return of a plain URL, both by direct application of the amended theorem. -/
theorem c5_witness :
    resolveContentAddress ⟨"ipfs://".data ++ "abc123".data⟩ =
      ⟨"https://ipfs.io/ipfs/".data ++ "abc123".data⟩ ∧
    occursIn "ipfs://".data "https://example.net/a.json".data = false ∧
    resolveContentAddress "https://example.net/a.json" = "https://example.net/a.json" :=
  ⟨c5_resolver_behaviour.1 "abc123".data, by decide,
   c5_resolver_behaviour.2.1 "https://example.net/a.json" (by decide)⟩

/-- C6: if any of the three prerequisite reads (collection name, symbol,
owner balance) throws, the whole run aborts with the single run-level error
message and no entry list is produced; and whenever all three succeed the
run always returns an entry list — per-item oracles are arbitrary (any of
them may throw on any input), so no per-item error ever escapes the
pipeline boundary. -/
theorem c6_prerequisite_failure_aborts
    (own : Nat → Except String Nat) (uri : Nat → Except String String)
    (doc : String → Except String MetaDoc)
    (priceResp : String → Except String OpenSeaAsset) :
    (∀ (nR sR : Except String String) (bR : Except String Nat),
       ((∃ e, nR = .error e) ∨ (∃ e, sR = .error e) ∨ (∃ e, bR = .error e)) →
       fetchNFTs nR sR bR own uri doc priceResp = Except.error errMsg) ∧
    (∀ (cn cs : String) (bal : Nat),
       ∃ es, fetchNFTs (.ok cn) (.ok cs) (.ok bal) own uri doc priceResp =
         Except.ok es) := by
  constructor
  · rintro nR sR bR (⟨e, rfl⟩ | ⟨e, rfl⟩ | ⟨e, rfl⟩)
    · rfl
    · cases nR with
      | error e2 => rfl
      | ok cn => rfl
    · cases nR with
      | error e2 => rfl
      | ok cn =>
        cases sR with
        | error e3 => rfl
        | ok cs => rfl
  · intro cn cs bal
    exact ⟨_, rfl⟩

/-- C6 witness: a concrete run whose name read throws aborts with the
run-level error message. -/
theorem c6_witness :
    fetchNFTs (.error "rpc down") (.ok "SYM") (.ok 3)
      (fun _ => Except.error "e") (fun _ => Except.error "e")
      (fun _ => Except.error "e") (fun _ => Except.error "e") =
      Except.error errMsg :=
  (c6_prerequisite_failure_aborts _ _ _ _).1 _ _ _ (Or.inl ⟨"rpc down", rfl⟩)

/-- C10: a first listing whose converted decimal price is zero makes
`fetchOpenSeaPrice` return `none`, the very result produced when no listing
exists, so a zero-priced token is indistinguishable from an unlisted one;
and the price comparator treats a zero price exactly like an absent price
(replacing `some 0` by `none` never changes any comparison) and orders a
zero-priced entry after every positive-priced entry. -/
theorem c10_zero_price_is_absent :
    (∀ (o : SellOrder) (rest : List SellOrder) (ptc : PaymentTokenContract) (cp : ℚ),
       o.current_price = some cp → o.payment_token_contract = some ptc →
       cp / (10 : ℚ) ^ ptc.decimals = 0 →
       (fetchOpenSeaPrice (.ok ⟨some (o :: rest)⟩) = none ∧
        fetchOpenSeaPrice (.ok ⟨some []⟩) = none)) ∧
    (∀ a b : NFT, a.lowestPrice = some 0 →
       (priceCompare a b = priceCompare (erasePrice a) b ∧
        priceCompare b a = priceCompare b (erasePrice a)) ∧
       (∀ q : ℚ, b.lowestPrice = some q → 0 < q →
         priceCompare a b = 1 ∧ priceCompare b a = -1)) := by
  constructor
  · intro o rest ptc cp hcp hptc hzero
    obtain ⟨ocp, optc⟩ := o
    have hc : ocp = some cp := hcp
    have hp : optc = some ptc := hptc
    subst hc
    subst hp
    refine ⟨?_, rfl⟩
    simp [fetchOpenSeaPrice, hzero]
  · intro a b ha
    constructor
    · constructor <;> simp [priceCompare, jsFalsyPrice, ha, erasePrice]
    · intro q hb hq
      constructor <;> simp [priceCompare, jsFalsyPrice, ha, hb, hq.ne']

/-- C10 witness: a concrete zero-priced listing resolves to `none` like an
empty listing list, and a concrete zero-priced entry compares against a
positive-priced entry exactly as an absent-priced entry does. -/
theorem c10_witness :
    (fetchOpenSeaPrice (.ok ⟨some [⟨some 0, some ⟨2, "WETH"⟩⟩]⟩) = none ∧
     fetchOpenSeaPrice (.ok ⟨some []⟩) = none) ∧
    (priceCompare (plainNFT "1" "a" (some 0)) (plainNFT "2" "b" (some 3)) =
       priceCompare (erasePrice (plainNFT "1" "a" (some 0))) (plainNFT "2" "b" (some 3)) ∧
     priceCompare (plainNFT "1" "a" (some 0)) (plainNFT "2" "b" (some 3)) = 1) :=
  ⟨c10_zero_price_is_absent.1 ⟨some 0, some ⟨2, "WETH"⟩⟩ [] ⟨2, "WETH"⟩ 0 rfl rfl (by norm_num),
   ⟨(c10_zero_price_is_absent.2 (plainNFT "1" "a" (some 0)) (plainNFT "2" "b" (some 3)) rfl).1.1,
    ((c10_zero_price_is_absent.2 (plainNFT "1" "a" (some 0)) (plainNFT "2" "b" (some 3)) rfl).2
      3 rfl (by norm_num)).1⟩⟩

/-! ### Pipeline characterisation helpers -/

theorem attachPrice_tokenId (p : String → Except String OpenSeaAsset) (n : NFT) :
    (attachPrice p n).tokenId = n.tokenId := rfl

theorem fetchNFTs_ok (own : Nat → Except String Nat)
    (uri : Nat → Except String String) (doc : String → Except String MetaDoc)
    (priceResp : String → Except String OpenSeaAsset) (cn cs : String) (bal : Nat) :
    fetchNFTs (.ok cn) (.ok cs) (.ok bal) own uri doc priceResp =
      .ok (((List.range bal).filterMap (fetchNFTMetadata own uri doc cn cs)).map
        (attachPrice priceResp)) := by
  show Except.ok ((((List.range bal).map (fetchNFTMetadata own uri doc cn cs)).filterMap
    id).map (attachPrice priceResp)) = _
  rw [List.filterMap_map]
  rfl

theorem countP_eq_ite_of_nodup (l : List String) (tid : String) (h : l.Nodup) :
    l.countP (fun s => s = tid) = if tid ∈ l then 1 else 0 := by
  induction l with
  | nil => simp
  | cons a l ih =>
    rw [List.nodup_cons] at h
    rw [List.countP_cons]
    by_cases ha : a = tid
    · subst ha
      simp [h.1, ih h.2]
    · have ha2 : ¬ (tid = a) := fun hh => ha hh.symm
      simp [ha, ha2, ih h.2]

/-! ### Remaining claim theorems -/

/-- C2 amended: when the prerequisites succeed, the run result is exactly
the list of entries whose metadata resolution succeeded, in enumeration
order; provided the successful token identifiers are distinct, each of them
appears in exactly one entry and every other identifier — in particular
every token whose metadata failed — appears in zero entries.  The result
(whose type, like the code, has no failure component) records nothing
about the dropped tokens. -/
theorem c2_entries_exactly_successes
    (own : Nat → Except String Nat) (uri : Nat → Except String String)
    (doc : String → Except String MetaDoc)
    (priceResp : String → Except String OpenSeaAsset)
    (cn cs : String) (bal : Nat)
    (hnodup : (((List.range bal).filterMap
        (fetchNFTMetadata own uri doc cn cs)).map NFT.tokenId).Nodup) :
    ∃ es, fetchNFTs (.ok cn) (.ok cs) (.ok bal) own uri doc priceResp = .ok es ∧
      es.map NFT.tokenId =
        ((List.range bal).filterMap (fetchNFTMetadata own uri doc cn cs)).map
          NFT.tokenId ∧
      ∀ tid : String, es.countP (fun e => e.tokenId = tid) =
        if tid ∈ ((List.range bal).filterMap
            (fetchNFTMetadata own uri doc cn cs)).map NFT.tokenId
        then 1 else 0 := by
  refine ⟨_, fetchNFTs_ok own uri doc priceResp cn cs bal, ?_, ?_⟩
  · rw [List.map_map]
    rfl
  · intro tid
    have hmap : (((List.range bal).filterMap
        (fetchNFTMetadata own uri doc cn cs)).map (attachPrice priceResp)).countP
          (fun e => e.tokenId = tid) =
        ((((List.range bal).filterMap (fetchNFTMetadata own uri doc cn cs)).map
          NFT.tokenId).countP (fun s => s = tid)) := by
      rw [List.countP_map, List.countP_map]
      rfl
    rw [hmap, countP_eq_ite_of_nodup _ tid hnodup]

/-- C2 concrete scenario: owned tokens 5 and 7; the metadata document of
token 7 is unreachable. -/
def c2own : Nat → Except String Nat := fun i => if i = 0 then .ok 5 else .ok 7

def c2uri : Nat → Except String String := fun t => .ok ("u" ++ toString t)

def c2doc : String → Except String MetaDoc := fun s =>
  if s = "u7" then .error "unreachable metadata"
  else .ok ⟨some "Nice", none, some "d", none⟩

def c2price : String → Except String OpenSeaAsset := fun _ => .error "no key"

/-- C2 counterexample: token 7 is owned and its metadata fails; the claim
requires it to appear in exactly one `EnrichmentFailure{stage: metadata}`
of the result, but the displayed equality is the ENTIRE run result — a
one-entry list with no failure component at all (the result type, like the
source, carries none) — and token 7 appears in no part of it. -/
theorem c2_cex_failed_token_unrecorded :
    c2own 1 = .ok 7 ∧
    fetchNFTs (.ok "C") (.ok "S") (.ok 2) c2own c2uri c2doc c2price =
      .ok [⟨"5", "Nice", "", "d", none, some "C", some "S", none, none⟩] ∧
    ∀ n ∈ [(⟨"5", "Nice", "", "d", none, some "C", some "S", none, none⟩ : NFT)],
      n.tokenId ≠ "7" := by
  refine ⟨rfl, rfl, by decide⟩

/-- C2 witness: the amended theorem applied to the concrete scenario. -/
theorem c2_witness :
    ∃ es, fetchNFTs (.ok "C") (.ok "S") (.ok 2) c2own c2uri c2doc c2price = .ok es ∧
      es.map NFT.tokenId =
        ((List.range 2).filterMap (fetchNFTMetadata c2own c2uri c2doc "C" "S")).map
          NFT.tokenId ∧
      ∀ tid : String, es.countP (fun e => e.tokenId = tid) =
        if tid ∈ ((List.range 2).filterMap
            (fetchNFTMetadata c2own c2uri c2doc "C" "S")).map NFT.tokenId
        then 1 else 0 :=
  c2_entries_exactly_successes c2own c2uri c2doc c2price "C" "S" 2 (by decide)

/-- C4 counterexample: with a present price of zero the comparator does not
order present prices ascending — an entry priced 5 is placed BEFORE an
entry priced 0, because `!b.lowestPrice` is true for the number 0. -/
theorem c4_cex_zero_price_breaks_ascending :
    ¬ (List.Pairwise (fun x y : NFT => ∀ p q : ℚ,
         x.lowestPrice = some p → y.lowestPrice = some q → p ≤ q)
        (jsSortBy priceCompare [plainNFT "1" "a" (some 5), plainNFT "2" "b" (some 0)])) := by
  intro h
  have hs : jsSortBy priceCompare [plainNFT "1" "a" (some 5), plainNFT "2" "b" (some 0)] =
      [plainNFT "1" "a" (some 5), plainNFT "2" "b" (some 0)] := by
    norm_num [jsSortBy, List.insertionSort, List.orderedInsert, priceCompare,
      jsFalsyPrice, plainNFT]
  rw [hs] at h
  have h2 := (List.pairwise_cons.mp h).1 (plainNFT "2" "b" (some 0)) (by simp)
    5 0 rfl rfl
  norm_num at h2

/-- C4 amended: sorting by price orders the output by the comparator key,
under which a zero price is identified with an absent price: every entry
whose price is absent or zero comes after every entry with a nonzero
present price, entries with nonzero present prices are in ascending price
order, and the sort is stable — for every key, the subsequence of entries
with that key is exactly the input subsequence with that key. -/
theorem c4_price_sort_sorted_and_stable (l : List NFT) :
    List.Pairwise (fun a b => keyLE (priceKey a) (priceKey b))
      (jsSortBy priceCompare l) ∧
    (∀ k : Option ℚ, (jsSortBy priceCompare l).filter (fun n => priceKey n = k) =
       l.filter (fun n => priceKey n = k)) := by
  constructor
  · have hsorted : List.Sorted (fun a b => priceCompare a b ≤ 0)
        (jsSortBy priceCompare l) := by
      unfold jsSortBy
      haveI hT : IsTotal NFT (fun a b => priceCompare a b ≤ 0) :=
        ⟨priceCompare_total⟩
      haveI hR : IsTrans NFT (fun a b => priceCompare a b ≤ 0) :=
        ⟨fun a b c hab hbc => priceCompare_trans hab hbc⟩
      exact List.sorted_insertionSort _ l
    exact hsorted.imp (fun h => (priceCompare_le_iff _ _).mp h)
  · intro k
    unfold jsSortBy
    exact filter_insertionSort_key _ priceKey
      (fun x y h => priceCompare_key_ne h) k l

/-- C7 amended: with balance 3 and the enumeration call throwing at index
1, index 1 is skipped, the run continues, and the run result is exactly
the two entries for indices 0 and 2; nothing in the result records the
failed index (the result type, like the code, has no failure component). -/
theorem c7_enumeration_failure_skips_index
    (own : Nat → Except String Nat) (uri : Nat → Except String String)
    (doc : String → Except String MetaDoc)
    (priceResp : String → Except String OpenSeaAsset)
    (cn cs e : String) (n0 n2 : NFT)
    (h1 : own 1 = Except.error e)
    (hm0 : fetchNFTMetadata own uri doc cn cs 0 = some n0)
    (hm2 : fetchNFTMetadata own uri doc cn cs 2 = some n2) :
    fetchNFTs (.ok cn) (.ok cs) (.ok 3) own uri doc priceResp =
      .ok [attachPrice priceResp n0, attachPrice priceResp n2] := by
  have hm1 : fetchNFTMetadata own uri doc cn cs 1 = none := by
    unfold fetchNFTMetadata
    rw [h1]
  rw [fetchNFTs_ok]
  rw [show List.range 3 = [0, 1, 2] from rfl]
  simp [List.filterMap_cons, hm0, hm1, hm2]

/-- C7 concrete scenario: balance 3, enumeration throws at index 1. -/
def c7own : Nat → Except String Nat :=
  fun i => if i = 0 then .ok 10 else if i = 2 then .ok 12
    else .error "enumeration reverted"

def c7uri : Nat → Except String String := fun t => .ok ("m" ++ toString t)

def c7doc : String → Except String MetaDoc := fun _ => .ok ⟨none, none, none, none⟩

def c7price : String → Except String OpenSeaAsset := fun _ => .error "no key"

/-- C7 counterexample: the displayed equality is the ENTIRE run result for
the balance-3 scenario with index 1 throwing: two entries (indices 0 and
2) and nothing else — the claimed `EnrichmentFailure{stage: ownership}`
does not exist anywhere in the result. -/
theorem c7_cex_no_ownership_failure_record :
    c7own 1 = .error "enumeration reverted" ∧
    fetchNFTs (.ok "C") (.ok "S") (.ok 3) c7own c7uri c7doc c7price =
      .ok [⟨"10", "#10", "", "", none, some "C", some "S", none, none⟩,
           ⟨"12", "#12", "", "", none, some "C", some "S", none, none⟩] := by
  refine ⟨rfl, rfl⟩

/-- C7 witness: the amended theorem applied to the concrete scenario. -/
theorem c7_witness :
    fetchNFTs (.ok "C") (.ok "S") (.ok 3) c7own c7uri c7doc c7price =
      .ok [attachPrice c7price
             ⟨"10", "#10", "", "", none, some "C", some "S", none, none⟩,
           attachPrice c7price
             ⟨"12", "#12", "", "", none, some "C", some "S", none, none⟩] :=
  c7_enumeration_failure_skips_index c7own c7uri c7doc c7price "C" "S"
    "enumeration reverted" _ _ rfl rfl rfl

/-- C8 amended: for a fetched metadata document the constructed entry has
name equal to the document name when that is present AND nonempty,
falling back to `"#<tokenId>"` when the name is absent OR the empty string
(the source uses JavaScript `||`, for which the empty string is falsy);
description defaults to the empty string when absent; attributes are the
document attributes when present and absent otherwise. -/
theorem c8_metadata_defaulting
    (own : Nat → Except String Nat) (uri : Nat → Except String String)
    (doc : String → Except String MetaDoc) (cn cs : String)
    (i tid : Nat) (u : String) (md : MetaDoc)
    (ho : own i = Except.ok tid) (hu : uri tid = Except.ok u)
    (hd : doc (resolveContentAddress u) = Except.ok md) :
    ∃ n, fetchNFTMetadata own uri doc cn cs i = some n ∧
      ((md.name = none ∨ md.name = some "") → n.name = "#" ++ toString tid) ∧
      (∀ s, md.name = some s → s ≠ "" → n.name = s) ∧
      (md.description = none → n.description = "") ∧
      (∀ s, md.description = some s → n.description = s) ∧
      n.attributes = md.attributes := by
  simp only [fetchNFTMetadata, ho, hu, hd]
  refine ⟨_, rfl, ?_, ?_, ?_, ?_, rfl⟩
  · rintro (h | h) <;> simp [h]
  · intro s hs hne
    simp [hs, hne]
  · intro h
    simp [h]
  · intro s hs
    simp [hs]

/-- C8 concrete scenario: token 5 with a metadata document whose name field
is present but empty. -/
def c8own : Nat → Except String Nat := fun _ => .ok 5

def c8uri : Nat → Except String String := fun _ => .ok "u"

def c8doc : String → Except String MetaDoc :=
  fun _ => .ok ⟨some "", some "ipfs://img", some "", none⟩

/-- C8 counterexample: the document name field is PRESENT (the empty
string), so the claim requires the entry name to equal it; the code
instead falls back to `"#5"`. -/
theorem c8_cex_empty_name_falls_back :
    c8doc "u" = .ok ⟨some "", some "ipfs://img", some "", none⟩ ∧
    (fetchNFTMetadata c8own c8uri c8doc "C" "S" 0).map NFT.name = some "#5" ∧
    ("#5" : String) ≠ "" := by
  refine ⟨rfl, rfl, by decide⟩

/-- C8 witness: the amended theorem applied to the concrete scenario. -/
theorem c8_witness :
    ∃ n, fetchNFTMetadata c8own c8uri c8doc "C" "S" 0 = some n ∧
      (((⟨some "", some "ipfs://img", some "", none⟩ : MetaDoc).name = none ∨
        (⟨some "", some "ipfs://img", some "", none⟩ : MetaDoc).name = some "") →
          n.name = "#" ++ toString 5) ∧
      (∀ s, (⟨some "", some "ipfs://img", some "", none⟩ : MetaDoc).name = some s →
        s ≠ "" → n.name = s) ∧
      ((⟨some "", some "ipfs://img", some "", none⟩ : MetaDoc).description = none →
        n.description = "") ∧
      (∀ s, (⟨some "", some "ipfs://img", some "", none⟩ : MetaDoc).description = some s →
        n.description = s) ∧
      n.attributes = (⟨some "", some "ipfs://img", some "", none⟩ : MetaDoc).attributes :=
  c8_metadata_defaulting c8own c8uri c8doc "C" "S" 0 5 "u"
    ⟨some "", some "ipfs://img", some "", none⟩ rfl rfl rfl

/-- C9: deriving the filtered and sorted view leaves the underlying entry
list unchanged — the source first copies the state array (`[...nfts]`),
`filter` allocates a new array, and `sort` reorders only that copy in
place — and the view produced is the new ordered list obtained by
filtering then sorting, for every entry list, filter string and sort
comparator. -/
theorem c9_view_does_not_mutate_entries (nfts : List NFT) (filterStr : String)
    (cmp : NFT → NFT → ℚ) :
    (filteredAndSortedNFTs nfts filterStr cmp).1 = nfts ∧
    (filteredAndSortedNFTs nfts filterStr cmp).2 =
      jsSortBy cmp (nfts.filter (matchesFilter filterStr)) :=
  ⟨rfl, rfl⟩

end NFTViewer
